import Mathlib

/-!
Shallow embedding of the photon-mapping core of the Raytracer repository
(src/Include/PhotonMap.h) together with proofs of the specified properties.

Coordinates are modelled by exact rationals (ℚ) standing in for the C++
`float` values; container accesses that C++ performs through `operator[]`
are modelled by `List.get?`, so out-of-range accesses surface as `none`
instead of undefined behaviour.
-/

namespace PhotonMapSpec

/-- 3D vector, standing in for `glm::vec3`. -/
structure Vec3 where
  x : ℚ
  y : ℚ
  z : ℚ
deriving DecidableEq, Repr

/-- The zero vector. -/
def Vec3.zero : Vec3 := ⟨0, 0, 0⟩

/-- Componentwise addition of vectors. -/
def Vec3.add (a b : Vec3) : Vec3 := ⟨a.x + b.x, a.y + b.y, a.z + b.z⟩

/-- Scalar multiplication. -/
def Vec3.scale (c : ℚ) (a : Vec3) : Vec3 := ⟨c * a.x, c * a.y, c * a.z⟩

/-- Negation of a vector, standing in for unary minus on `glm::vec3`. -/
def Vec3.neg (a : Vec3) : Vec3 := ⟨-a.x, -a.y, -a.z⟩

/-- Euclidean dot product, standing in for `glm::dot`. -/
def Vec3.dot (a b : Vec3) : ℚ := a.x * b.x + a.y * b.y + a.z * b.z

/-- Squared Euclidean distance between two points. -/
def sqDist (a b : Vec3) : ℚ :=
  (a.x - b.x) * (a.x - b.x) + (a.y - b.y) * (a.y - b.y) + (a.z - b.z) * (a.z - b.z)

/-- A ray with an origin and a direction, embedding `Ray` from the
raytracer headers as used by `Photon::beam`. -/
structure Ray where
  origin : Vec3
  direction : Vec3
deriving DecidableEq, Repr

/-- `PointCloud<T>::Point` from src/Include/PhotonMap.h: a plain x/y/z
triple built from a `glm::vec3`. -/
structure Point where
  x : ℚ
  y : ℚ
  z : ℚ
deriving DecidableEq, Repr

/-- The `Point(glm::vec3 v)` constructor. -/
def Point.ofVec3 (v : Vec3) : Point := ⟨v.x, v.y, v.z⟩

/-- `PointCloud<T>` from src/Include/PhotonMap.h: a bare vector of points
exposing the nanoflann dataset-adaptor interface. -/
structure PointCloud where
  pts : List Point

/-- `PointCloud::kdtree_get_point_count`: returns the number of data points. -/
def PointCloud.kdtree_get_point_count (pc : PointCloud) : Nat := pc.pts.length

/-- `PointCloud::kdtree_distance`: squared Euclidean distance between the
query triple `p1` and the stored point at index `idx_p2`. The C++ indexes
`pts[idx_p2]` unchecked; here the access is `List.get?`, so an
out-of-range index yields `none`. -/
def PointCloud.kdtree_distance (pc : PointCloud) (p1 : ℚ × ℚ × ℚ) (idx_p2 : Nat) :
    Option ℚ :=
  match pc.pts.get? idx_p2 with
  | some pt =>
      some ((p1.1 - pt.x) * (p1.1 - pt.x) + (p1.2.1 - pt.y) * (p1.2.1 - pt.y) +
        (p1.2.2 - pt.z) * (p1.2.2 - pt.z))
  | none => none

/-- `PointCloud::kdtree_get_pt`: the `dim`-th component of the `idx`-th
point; `dim = 0` gives x, `dim = 1` gives y, every other value gives z. -/
def PointCloud.kdtree_get_pt (pc : PointCloud) (idx : Nat) (dim : Int) : Option ℚ :=
  match pc.pts.get? idx with
  | some pt => some (if dim = 0 then pt.x else if dim = 1 then pt.y else pt.z)
  | none => none

/-- `PointCloud::kdtree_get_bbox`: always returns `false`, leaving the
bounding box argument untouched, so nanoflann falls back to its standard
bounding-box computation loop. The C++ template parameter `BBOX` becomes a
type parameter. -/
def PointCloud.kdtree_get_bbox {BBOX : Type} (_pc : PointCloud) (bb : BBOX) :
    Bool × BBOX := (false, bb)

/-- `PhotonInfo` from src/Include/PhotonMap.h: a stored photon record with
color (energy), position and incoming direction. -/
structure PhotonInfo where
  color : Vec3
  position : Vec3
  direction : Vec3
deriving DecidableEq, Repr

/-- `Photon` from src/Include/PhotonMap.h: transient bounce-simulation
state. The header gives the member initializers `absorbed = false` and
`color = glm::vec3(1,1,1)`. -/
structure Photon where
  beam : Ray
  depth : Nat
  absorbed : Bool
  color : Vec3
deriving DecidableEq, Repr

/-- The constructor `Photon(glm::vec3 o, glm::vec3 d, unsigned int depth)`.
Its body lives in a .cpp file that is not under src/; modelled from the
header member initializers and the spec: the beam is the ray (o, d), the
bounce budget is `depth`, and the photon starts not absorbed with
full-intensity white color. -/
def Photon.init (o d : Vec3) (depth : Nat) : Photon :=
  { beam := ⟨o, d⟩, depth := depth, absorbed := false, color := ⟨1, 1, 1⟩ }

/-- `PhotonMapper` from src/Include/PhotonMap.h: holds the configured
photon and bounce counts, the gathered (terminal) photon records backing
the kd-tree, and the transient photons. -/
structure PhotonMapper where
  number_of_photons : Nat
  number_of_bounces : Nat
  gathered_photons : List PhotonInfo
  photons : List Photon

/-- `PhotonMapper::kdtree_get_point_count`: the number of stored records. -/
def PhotonMapper.kdtree_get_point_count (m : PhotonMapper) : Nat :=
  m.gathered_photons.length

/-- `PhotonMapper::kdtree_distance`: squared Euclidean distance between the
query triple `p1` and the position of the record at index `idx_p2`. -/
def PhotonMapper.kdtree_distance (m : PhotonMapper) (p1 : ℚ × ℚ × ℚ) (idx_p2 : Nat) :
    Option ℚ :=
  match m.gathered_photons.get? idx_p2 with
  | some r =>
      some ((p1.1 - r.position.x) * (p1.1 - r.position.x) +
        (p1.2.1 - r.position.y) * (p1.2.1 - r.position.y) +
        (p1.2.2 - r.position.z) * (p1.2.2 - r.position.z))
  | none => none

/-- `PhotonMapper::kdtree_get_pt`: the `dim`-th coordinate of the record at
index `idx`; `dim = 0` gives x, `dim = 1` gives y, every other value gives z. -/
def PhotonMapper.kdtree_get_pt (m : PhotonMapper) (idx : Nat) (dim : Int) : Option ℚ :=
  match m.gathered_photons.get? idx with
  | some r =>
      some (if dim = 0 then r.position.x else if dim = 1 then r.position.y
        else r.position.z)
  | none => none

/-- `PhotonMapper::kdtree_get_bbox`: always returns `false`, leaving the
bounding box untouched. -/
def PhotonMapper.kdtree_get_bbox {BBOX : Type} (_m : PhotonMapper) (bb : BBOX) :
    Bool × BBOX := (false, bb)

/-- `PhotonMapper::getDirection`. -/
def PhotonMapper.getDirection (m : PhotonMapper) (i : Nat) : Option Vec3 :=
  (m.gathered_photons.get? i).map PhotonInfo.direction

/-- `PhotonMapper::getEnergy`. -/
def PhotonMapper.getEnergy (m : PhotonMapper) (i : Nat) : Option Vec3 :=
  (m.gathered_photons.get? i).map PhotonInfo.color

/-- Ordering on (index, squaredDistance) pairs: by squared distance,
ties broken by index order (the deterministic tie-break fixed in the spec). -/
def nnLE (a b : Nat × ℚ) : Prop := a.2 < b.2 ∨ (a.2 = b.2 ∧ a.1 ≤ b.1)

instance : DecidableRel nnLE := fun a b =>
  inferInstanceAs (Decidable (a.2 < b.2 ∨ (a.2 = b.2 ∧ a.1 ≤ b.1)))

instance : IsTotal (Nat × ℚ) nnLE where
  total a b := by
    rcases lt_trichotomy a.2 b.2 with h | h | h
    · exact Or.inl (Or.inl h)
    · rcases Nat.le_total a.1 b.1 with h1 | h1
      · exact Or.inl (Or.inr ⟨h, h1⟩)
      · exact Or.inr (Or.inr ⟨h.symm, h1⟩)
    · exact Or.inr (Or.inl h)

instance : IsTrans (Nat × ℚ) nnLE where
  trans a b c hab hbc := by
    rcases hab with h1 | ⟨h1, h1i⟩
    · rcases hbc with h2 | ⟨h2, _⟩
      · exact Or.inl (h1.trans h2)
      · exact Or.inl (h2 ▸ h1)
    · rcases hbc with h2 | ⟨h2, h2i⟩
      · exact Or.inl (h1 ▸ h2)
      · exact Or.inr ⟨h1.trans h2, h1i.trans h2i⟩

/-- Modelled from the spec: the per-record (index, squaredDistance) list
used by the k-nearest-neighbour query. The query implementation
(`PhotonMap::findNNearestPoints`, nanoflann tree search) is declared in
src/Include/PhotonMap.h but its body is in a .cpp file that is not under
src/; the spec fixes its observable behaviour, which depends only on the
squared Euclidean distances from the query point to every stored record. -/
def distList (m : PhotonMapper) (point : Vec3) : List (Nat × ℚ) :=
  (List.range m.gathered_photons.length).map fun i =>
    (i, match m.gathered_photons.get? i with
        | some r => sqDist point r.position
        | none => 0)

/-- `PhotonMap` from src/Include/PhotonMap.h: the nanoflann tree over a
`PhotonMapper`; the tree is fully determined by the mapper it indexes, so
the state is the mapper itself. -/
structure PhotonMap where
  p : PhotonMapper

/-- Modelled from the spec: `PhotonMap::findNNearestPoints` (body in a
missing .cpp file). Per the spec it returns the `number_of_results`
closest records by squared Euclidean distance in ascending order, ties
broken by index, and all records when fewer exist. The C++ out-parameters
`ret_index`/`out_dist_sqr` become the returned list of pairs. -/
def PhotonMap.findNNearestPoints (pm : PhotonMap) (point : Vec3)
    (number_of_results : Nat := 5) : List (Nat × ℚ) :=
  (List.insertionSort nnLE (distList pm.p point)).take number_of_results

/-- Rational stand-in for the float constant π used by the gather disk
area; its exact value is irrelevant to the stated properties, only its
positivity matters. -/
def piQ : ℚ := 355 / 113

/-- Minimum-area floor guarding the density-estimate division, per the
spec's clamping requirement for degenerate clusters. -/
def areaFloor : ℚ := 1 / 1000000000

/-- Modelled from the spec: the radiance estimate of
`PhotonMap::gatherPhotons` (body in a missing .cpp file). Per the spec:
query the k nearest records, keep those whose reversed incoming direction
lies in the visible hemisphere of `normal` (non-negative dot product), sum
their energies, and divide by the disk area given by the largest gathered
squared distance, clamped below by a minimum-area floor. `hemiOk` is the
hemisphere filter applied to one (index, squaredDistance) pair. -/
def hemiOk (m : PhotonMapper) (normal : Vec3) (pr : Nat × ℚ) : Bool :=
  match m.gathered_photons.get? pr.1 with
  | some r => decide (0 ≤ Vec3.dot normal (Vec3.neg r.direction))
  | none => false

/-- Accumulate the energy (color) of the record a neighbour pair points at. -/
def addEnergy (m : PhotonMapper) (acc : Vec3) (pr : Nat × ℚ) : Vec3 :=
  match m.gathered_photons.get? pr.1 with
  | some r => Vec3.add acc r.color
  | none => acc

def gatherRadiance (m : PhotonMapper) (point normal : Vec3) (k : Nat) : Vec3 :=
  let ns := (List.insertionSort nnLE (distList m point)).take k
  let qual := ns.filter (hemiOk m normal)
  let energy := qual.foldl (addEnergy m) Vec3.zero
  let maxDistSq := ns.foldl (fun acc pr => max acc pr.2) 0
  Vec3.scale (1 / max (piQ * maxDistSq) areaFloor) energy

/-- Modelled from the spec: `PhotonMap::gatherPhotons` as the caller sees
it, a read query on the map state returning the radiance estimate and the
(unchanged, read-only) map. -/
def PhotonMap.gatherPhotons (pm : PhotonMap) (point normal : Vec3) :
    Vec3 × PhotonMap :=
  (gatherRadiance pm.p point normal 5, pm)

/-- A light source as the emission pass sees it: only its intensity
matters for photon allocation. -/
structure Light where
  intensity : ℚ

/-- A scene as the emission pass sees it: its list of lights. -/
structure Scene where
  lights : List Light

/-- Modelled from the spec: the floor share of `photon_count` photons a
light of intensity `w` receives when the scene's total intensity is
`total`. -/
def floorShare (photon_count : Nat) (total w : ℚ) : Nat :=
  (((photon_count : ℚ) * w) / total).floor.toNat

/-- Modelled from the spec: deterministic distribution of the rounding
remainder — the first light of positive intensity receives the remainder
`r` on top of its floor share; every other light keeps its floor share. -/
def distributeRem (photon_count : Nat) (total : ℚ) (r : Nat) :
    List ℚ → List Nat
  | [] => []
  | w :: ws =>
      if 0 < w then (floorShare photon_count total w + r) ::
        ws.map (floorShare photon_count total)
      else floorShare photon_count total w :: distributeRem photon_count total r ws

/-- Modelled from the spec: the per-light photon allocation of
`PhotonMapper::mapScene` (body in a missing .cpp file). Per the spec,
photons are distributed across lights proportional to relative intensity,
with the rounding remainder distributed deterministically so the total is
exactly `photon_count`; a scene of non-positive total intensity receives
no photons at all. -/
def photonAlloc (photon_count : Nat) (ws : List ℚ) : List Nat :=
  if 0 < ws.sum then
    distributeRem photon_count ws.sum
      (photon_count - (ws.map (floorShare photon_count ws.sum)).sum) ws
  else ws.map fun _ => 0

/-- Modelled from the spec: the observable light-allocation behaviour of
`PhotonMapper::mapScene` — how many photons each light of the scene emits. -/
def mapSceneAlloc (scene : Scene) (photon_count : Nat) : List Nat :=
  photonAlloc photon_count (scene.lights.map Light.intensity)

/-- A floor share of zero intensity is zero photons. -/
theorem floorShare_zero (photon_count : Nat) (t : ℚ) : floorShare photon_count t 0 = 0 := by
  unfold floorShare
  rw [mul_zero, zero_div]
  decide

/-- A list of non-positive rationals has non-positive sum. -/
theorem sum_nonpos_of_forall_nonpos {ws : List ℚ} (h : ∀ w ∈ ws, w ≤ 0) :
    ws.sum ≤ 0 := by
  induction ws with
  | nil => simp
  | cons w ws ih =>
    simp only [List.sum_cons]
    exact add_nonpos (h w (List.mem_cons_self w ws))
      (ih fun x hx => h x (List.mem_cons_of_mem w hx))

/-- A list with positive sum has a positive element. -/
theorem exists_pos_of_sum_pos {ws : List ℚ} (h : 0 < ws.sum) : ∃ w ∈ ws, 0 < w := by
  by_contra hc
  push_neg at hc
  exact absurd h (not_lt.mpr (sum_nonpos_of_forall_nonpos hc))

/-- The floor shares of nonnegative intensities sum to at most the requested
photon count. -/
theorem sum_floorShare_le (photon_count : Nat) {ws : List ℚ} (hpos : 0 < ws.sum)
    (hnn : ∀ w ∈ ws, 0 ≤ w) :
    (ws.map (floorShare photon_count ws.sum)).sum ≤ photon_count := by
  have hcast : (((ws.map (floorShare photon_count ws.sum)).sum : Nat) : ℚ) =
      (ws.map fun w => ((floorShare photon_count ws.sum w : Nat) : ℚ)).sum := by
    rw [Nat.cast_list_sum, List.map_map]
    rfl
  have hle : (((ws.map (floorShare photon_count ws.sum)).sum : Nat) : ℚ) ≤
      (photon_count : ℚ) := by
    rw [hcast]
    have h1 : (ws.map fun w => ((floorShare photon_count ws.sum w : Nat) : ℚ)).sum ≤
        (ws.map fun w => (photon_count : ℚ) * w / ws.sum).sum := by
      apply List.sum_le_sum
      intro w hw
      have hw0 : (0 : ℚ) ≤ (photon_count : ℚ) * w / ws.sum :=
        div_nonneg (mul_nonneg (Nat.cast_nonneg photon_count) (hnn w hw)) hpos.le
      have hfl : (0 : Int) ≤ Int.floor ((photon_count : ℚ) * w / ws.sum) :=
        Int.floor_nonneg.mpr hw0
      unfold floorShare
      calc ((Int.toNat (Int.floor ((photon_count : ℚ) * w / ws.sum)) : Nat) : ℚ)
          = ((Int.floor ((photon_count : ℚ) * w / ws.sum) : Int) : ℚ) := by
            exact_mod_cast congrArg (fun n : Int => ((n : ℚ))) (Int.toNat_of_nonneg hfl)
        _ ≤ (photon_count : ℚ) * w / ws.sum := Int.floor_le _
    have h2 : (ws.map fun w => (photon_count : ℚ) * w / ws.sum).sum =
        (photon_count : ℚ) := by
      have hfun : (fun w => (photon_count : ℚ) * w / ws.sum) =
          fun w => ((photon_count : ℚ) / ws.sum) * w := by
        funext w
        ring
      rw [hfun, List.sum_map_mul_left, List.map_id']
      exact div_mul_cancel₀ _ (ne_of_gt hpos)
    exact h1.trans h2.le
  exact_mod_cast hle

/-- Distributing the remainder adds exactly the remainder to the total,
provided some light has positive intensity. -/
theorem distributeRem_sum (photon_count : Nat) (t : ℚ) (r : Nat) :
    ∀ {ws : List ℚ}, (∃ w ∈ ws, 0 < w) →
      (distributeRem photon_count t r ws).sum =
        (ws.map (floorShare photon_count t)).sum + r := by
  intro ws hex
  induction ws with
  | nil => simp at hex
  | cons w ws ih =>
    by_cases hw : 0 < w
    · simp only [distributeRem, if_pos hw, List.sum_cons, List.map_cons]
      omega
    · have hex2 : ∃ x ∈ ws, 0 < x := by
        rcases hex with ⟨x, hx, hxpos⟩
        rcases List.mem_cons.mp hx with hx0 | hx1
        · exact absurd (hx0 ▸ hxpos) hw
        · exact ⟨x, hx1, hxpos⟩
      simp only [distributeRem, if_neg hw, List.sum_cons, List.map_cons, ih hex2]
      omega

/-- Distributing the remainder leaves a zero-intensity light at zero photons. -/
theorem distributeRem_get_zero (photon_count : Nat) (t : ℚ) (r : Nat) :
    ∀ (ws : List ℚ) (i : Nat), ws.get? i = some 0 →
      (distributeRem photon_count t r ws).get? i = some 0 := by
  intro ws
  induction ws with
  | nil =>
    intro i h
    simp at h
  | cons w ws ih =>
    intro i h
    cases i with
    | zero =>
      have hw0 : w = 0 := by simpa using h
      subst hw0
      simp [distributeRem, floorShare_zero]
    | succ i =>
      have hws : ws.get? i = some 0 := by simpa using h
      by_cases hw : 0 < w
      · simp only [distributeRem, if_pos hw, List.get?_cons_succ]
        rw [List.get?_map, hws]
        simp [floorShare_zero]
      · simp only [distributeRem, if_neg hw, List.get?_cons_succ]
        exact ih i hws

/-- Every element of the per-record distance list indexes a stored record
and carries its true squared distance from the query point. -/
theorem mem_distList_get (m : PhotonMapper) (point : Vec3) {pr : Nat × ℚ}
    (h : pr ∈ distList m point) :
    ∃ r : PhotonInfo, m.gathered_photons.get? pr.1 = some r ∧
      pr.2 = sqDist point r.position := by
  unfold distList at h
  obtain ⟨i, hi, heq⟩ := List.mem_map.mp h
  have hlen : i < m.gathered_photons.length := List.mem_range.mp hi
  have hget : m.gathered_photons[i]? = some m.gathered_photons[i] :=
    List.getElem?_eq_getElem hlen
  subst heq
  refine ⟨m.gathered_photons[i], ?_, ?_⟩
  · simp [List.get?_eq_getElem?, hget]
  · simp [hget]

/-- C3: `PhotonMapper::kdtree_get_point_count` returns exactly the number of
PhotonInfo records stored in `gathered_photons`. -/
theorem point_count_eq_gathered_length (m : PhotonMapper) :
    m.kdtree_get_point_count = m.gathered_photons.length := rfl

/-- C7: every Photon built by the constructor starts non-terminal: its color
is full-intensity white (1,1,1) and its absorbed flag is false. -/
theorem photon_init_white_not_absorbed (o d : Vec3) (depth : Nat) :
    (Photon.init o d depth).color = ⟨1, 1, 1⟩ ∧
      (Photon.init o d depth).absorbed = false :=
  ⟨rfl, rfl⟩

/-- C8: for both adapters, `kdtree_get_bbox` returns false and leaves the
bounding-box argument unchanged, so the tree build never takes a
precomputed-bounding-box shortcut. -/
theorem kdtree_get_bbox_always_false (pc : PointCloud) (m : PhotonMapper)
    (BBOX : Type) (bb : BBOX) :
    pc.kdtree_get_bbox bb = (false, bb) ∧ m.kdtree_get_bbox bb = (false, bb) :=
  ⟨rfl, rfl⟩

/-- C5: `gatherPhotons` is a pure read query: it leaves the photon map
unchanged, and two successive calls with identical arguments return equal
RGB results. -/
theorem gather_idempotent_pure (pm : PhotonMap) (point normal : Vec3) :
    (pm.gatherPhotons point normal).2 = pm ∧
      ((pm.gatherPhotons point normal).2.gatherPhotons point normal).2 = pm ∧
      ((pm.gatherPhotons point normal).2.gatherPhotons point normal).1 =
        (pm.gatherPhotons point normal).1 :=
  ⟨rfl, rfl, rfl⟩

/-- C2: for every in-range index, `kdtree_distance` equals the sum of
squared differences between the query coordinates and exactly the values
returned by `kdtree_get_pt` on dimensions 0, 1, 2. -/
theorem kdtree_distance_matches_get_pt (m : PhotonMapper) (p : ℚ × ℚ × ℚ)
    (idx : Nat) (h : idx < m.kdtree_get_point_count) :
    ∃ x y z : ℚ, m.kdtree_get_pt idx 0 = some x ∧
      m.kdtree_get_pt idx 1 = some y ∧ m.kdtree_get_pt idx 2 = some z ∧
      m.kdtree_distance p idx =
        some ((p.1 - x) ^ 2 + (p.2.1 - y) ^ 2 + (p.2.2 - z) ^ 2) := by
  have hlen : idx < m.gathered_photons.length := h
  have hr : m.gathered_photons[idx]? = some m.gathered_photons[idx] :=
    List.getElem?_eq_getElem hlen
  refine ⟨m.gathered_photons[idx].position.x, m.gathered_photons[idx].position.y,
    m.gathered_photons[idx].position.z, ?_, ?_, ?_, ?_⟩ <;>
    simp [PhotonMapper.kdtree_get_pt, PhotonMapper.kdtree_distance, hr, sq]

/-- C2 witness: the theorem instantiated on a one-record mapper. -/
theorem kdtree_distance_matches_get_pt_witness :
    0 < (PhotonMapper.mk 0 0 [⟨⟨1, 1, 1⟩, ⟨2, 3, 4⟩, ⟨0, 0, 1⟩⟩] []).kdtree_get_point_count ∧
      ∃ x y z : ℚ,
        (PhotonMapper.mk 0 0 [⟨⟨1, 1, 1⟩, ⟨2, 3, 4⟩, ⟨0, 0, 1⟩⟩] []).kdtree_get_pt 0 0 = some x ∧
        (PhotonMapper.mk 0 0 [⟨⟨1, 1, 1⟩, ⟨2, 3, 4⟩, ⟨0, 0, 1⟩⟩] []).kdtree_get_pt 0 1 = some y ∧
        (PhotonMapper.mk 0 0 [⟨⟨1, 1, 1⟩, ⟨2, 3, 4⟩, ⟨0, 0, 1⟩⟩] []).kdtree_get_pt 0 2 = some z ∧
        (PhotonMapper.mk 0 0 [⟨⟨1, 1, 1⟩, ⟨2, 3, 4⟩, ⟨0, 0, 1⟩⟩] []).kdtree_distance (1, 1, 1) 0 =
          some (((1 : ℚ) - x) ^ 2 + ((1 : ℚ) - y) ^ 2 + ((1 : ℚ) - z) ^ 2) :=
  ⟨by decide,
    kdtree_distance_matches_get_pt
      (PhotonMapper.mk 0 0 [⟨⟨1, 1, 1⟩, ⟨2, 3, 4⟩, ⟨0, 0, 1⟩⟩] []) (1, 1, 1) 0 (by decide)⟩

/-- C10: for every in-range index and every integer dimension (including
negative values and values above 2), `kdtree_get_pt` succeeds with an
in-bounds access, returning x for dim 0, y for dim 1, and z otherwise. -/
theorem kdtree_get_pt_total_inbounds (m : PhotonMapper) (idx : Nat) (dim : Int)
    (h : idx < m.kdtree_get_point_count) :
    ∃ r : PhotonInfo, m.gathered_photons.get? idx = some r ∧
      m.kdtree_get_pt idx dim =
        some (if dim = 0 then r.position.x else if dim = 1 then r.position.y
          else r.position.z) := by
  have hlen : idx < m.gathered_photons.length := h
  have hr : m.gathered_photons[idx]? = some m.gathered_photons[idx] :=
    List.getElem?_eq_getElem hlen
  exact ⟨m.gathered_photons[idx], by simpa [List.get?_eq_getElem?] using hr,
    by simp [PhotonMapper.kdtree_get_pt, hr]⟩

/-- C10 witness: the theorem instantiated at an out-of-range axis value. -/
theorem kdtree_get_pt_total_inbounds_witness :
    0 < (PhotonMapper.mk 0 0 [⟨⟨1, 1, 1⟩, ⟨2, 3, 4⟩, ⟨0, 0, 1⟩⟩] []).kdtree_get_point_count ∧
      ∃ r : PhotonInfo,
        (PhotonMapper.mk 0 0 [⟨⟨1, 1, 1⟩, ⟨2, 3, 4⟩, ⟨0, 0, 1⟩⟩] []).gathered_photons.get? 0 =
          some r ∧
        (PhotonMapper.mk 0 0 [⟨⟨1, 1, 1⟩, ⟨2, 3, 4⟩, ⟨0, 0, 1⟩⟩] []).kdtree_get_pt 0 (-7) =
          some (if (-7 : Int) = 0 then r.position.x else if (-7 : Int) = 1 then r.position.y
            else r.position.z) :=
  ⟨by decide,
    kdtree_get_pt_total_inbounds
      (PhotonMapper.mk 0 0 [⟨⟨1, 1, 1⟩, ⟨2, 3, 4⟩, ⟨0, 0, 1⟩⟩] []) 0 (-7) (by decide)⟩

/-- C9: a `PointCloud` and a `PhotonMapper` storing the same sequence of 3D
positions expose equivalent kd-tree adapters: equal point counts, agreeing
per-axis accessors, and agreeing squared distances. -/
theorem adapters_equivalent (pc : PointCloud) (m : PhotonMapper)
    (h : pc.pts.map (fun q => (q.x, q.y, q.z)) =
      m.gathered_photons.map (fun r => (r.position.x, r.position.y, r.position.z))) :
    pc.kdtree_get_point_count = m.kdtree_get_point_count ∧
      (∀ idx dim, pc.kdtree_get_pt idx dim = m.kdtree_get_pt idx dim) ∧
      (∀ p idx, pc.kdtree_distance p idx = m.kdtree_distance p idx) := by
  have hget : ∀ idx : Nat,
      (pc.pts.get? idx).map (fun q => (q.x, q.y, q.z)) =
        (m.gathered_photons.get? idx).map
          (fun r => (r.position.x, r.position.y, r.position.z)) := by
    intro idx
    have := congrArg (fun l => l.get? idx) h
    simpa [List.get?_map] using this
  refine ⟨?_, ?_, ?_⟩
  · have := congrArg List.length h
    simpa [PointCloud.kdtree_get_point_count, PhotonMapper.kdtree_get_point_count]
      using this
  · intro idx dim
    have hidx := hget idx
    unfold PointCloud.kdtree_get_pt PhotonMapper.kdtree_get_pt
    cases hq : pc.pts.get? idx <;> cases hr : m.gathered_photons.get? idx <;>
      rw [hq, hr] at hidx <;> simp_all
  · intro p idx
    have hidx := hget idx
    unfold PointCloud.kdtree_distance PhotonMapper.kdtree_distance
    cases hq : pc.pts.get? idx <;> cases hr : m.gathered_photons.get? idx <;>
      rw [hq, hr] at hidx <;> simp_all

/-- C9 witness: the equivalence instantiated on a concrete two-point cloud
and a two-record mapper at the same positions. -/
theorem adapters_equivalent_witness :
    ((PointCloud.mk [⟨1, 2, 3⟩, ⟨4, 5, 6⟩]).pts.map (fun q => (q.x, q.y, q.z)) =
      (PhotonMapper.mk 0 0
        [⟨⟨1, 1, 1⟩, ⟨1, 2, 3⟩, ⟨0, 0, 1⟩⟩, ⟨⟨1, 0, 0⟩, ⟨4, 5, 6⟩, ⟨0, 1, 0⟩⟩] []).gathered_photons.map
        (fun r => (r.position.x, r.position.y, r.position.z))) ∧
      ((PointCloud.mk [⟨1, 2, 3⟩, ⟨4, 5, 6⟩]).kdtree_get_point_count =
        (PhotonMapper.mk 0 0
          [⟨⟨1, 1, 1⟩, ⟨1, 2, 3⟩, ⟨0, 0, 1⟩⟩, ⟨⟨1, 0, 0⟩, ⟨4, 5, 6⟩, ⟨0, 1, 0⟩⟩] []).kdtree_get_point_count ∧
      (∀ idx dim, (PointCloud.mk [⟨1, 2, 3⟩, ⟨4, 5, 6⟩]).kdtree_get_pt idx dim =
        (PhotonMapper.mk 0 0
          [⟨⟨1, 1, 1⟩, ⟨1, 2, 3⟩, ⟨0, 0, 1⟩⟩, ⟨⟨1, 0, 0⟩, ⟨4, 5, 6⟩, ⟨0, 1, 0⟩⟩] []).kdtree_get_pt idx dim) ∧
      (∀ p idx, (PointCloud.mk [⟨1, 2, 3⟩, ⟨4, 5, 6⟩]).kdtree_distance p idx =
        (PhotonMapper.mk 0 0
          [⟨⟨1, 1, 1⟩, ⟨1, 2, 3⟩, ⟨0, 0, 1⟩⟩, ⟨⟨1, 0, 0⟩, ⟨4, 5, 6⟩, ⟨0, 1, 0⟩⟩] []).kdtree_distance p idx)) :=
  ⟨by decide,
    adapters_equivalent (PointCloud.mk [⟨1, 2, 3⟩, ⟨4, 5, 6⟩])
      (PhotonMapper.mk 0 0
        [⟨⟨1, 1, 1⟩, ⟨1, 2, 3⟩, ⟨0, 0, 1⟩⟩, ⟨⟨1, 0, 0⟩, ⟨4, 5, 6⟩, ⟨0, 1, 0⟩⟩] [])
      (by decide)⟩

/-- C6: for every scene of positive total light intensity, `mapScene`
distributes exactly `photon_count` photon emissions across the lights, and
every light of zero intensity receives zero photons. -/
theorem mapScene_allocates_exactly (scene : Scene) (photon_count : Nat)
    (hpos : 0 < (scene.lights.map Light.intensity).sum)
    (hnn : ∀ l ∈ scene.lights, 0 ≤ l.intensity) :
    (mapSceneAlloc scene photon_count).sum = photon_count ∧
      ∀ i l0, scene.lights.get? i = some l0 → l0.intensity = 0 →
        (mapSceneAlloc scene photon_count).get? i = some 0 := by
  have hnn2 : ∀ w ∈ scene.lights.map Light.intensity, 0 ≤ w := by
    intro w hw
    obtain ⟨l, hl, rfl⟩ := List.mem_map.mp hw
    exact hnn l hl
  constructor
  · unfold mapSceneAlloc photonAlloc
    rw [if_pos hpos, distributeRem_sum photon_count _ _ (exists_pos_of_sum_pos hpos)]
    have hle := sum_floorShare_le photon_count hpos hnn2
    omega
  · intro i l0 hi h0
    have hwi : (scene.lights.map Light.intensity).get? i = some 0 := by
      rw [List.get?_map, hi]
      simp [h0]
    unfold mapSceneAlloc photonAlloc
    rw [if_pos hpos]
    exact distributeRem_get_zero photon_count _ _ _ i hwi

/-- C6 witness: the spec scenario — lights of intensity 10 and 0 with
1000 requested photons. -/
theorem mapScene_allocates_exactly_witness :
    (0 < ((Scene.mk [⟨10⟩, ⟨0⟩]).lights.map Light.intensity).sum ∧
      ∀ l ∈ (Scene.mk [⟨10⟩, ⟨0⟩]).lights, 0 ≤ l.intensity) ∧
      (mapSceneAlloc (Scene.mk [⟨10⟩, ⟨0⟩]) 1000).sum = 1000 ∧
      ∀ i l0, (Scene.mk [⟨10⟩, ⟨0⟩]).lights.get? i = some l0 → l0.intensity = 0 →
        (mapSceneAlloc (Scene.mk [⟨10⟩, ⟨0⟩]) 1000).get? i = some 0 :=
  ⟨⟨by norm_num, by norm_num⟩,
    mapScene_allocates_exactly (Scene.mk [⟨10⟩, ⟨0⟩]) 1000 (by norm_num) (by norm_num)⟩

/-- The radiance estimate is zero whenever the index is empty or none of
the queried neighbour pairs points at a record passing the hemisphere
filter. -/
theorem gatherRadiance_eq_zero (m : PhotonMapper) (point normal : Vec3) (k : Nat)
    (h : m.gathered_photons.length = 0 ∨
      ∀ pr ∈ (List.insertionSort nnLE (distList m point)).take k,
        ∀ r : PhotonInfo, m.gathered_photons.get? pr.1 = some r →
          Vec3.dot normal (Vec3.neg r.direction) < 0) :
    gatherRadiance m point normal k = Vec3.zero := by
  rcases h with h | h
  · have hnil : m.gathered_photons = [] := List.length_eq_zero.mp h
    simp [gatherRadiance, distList, hnil, Vec3.scale, Vec3.zero]
  · have hfil : ∀ pr ∈ (List.insertionSort nnLE (distList m point)).take k,
        hemiOk m normal pr = false := by
      intro pr hpr
      have hmem : pr ∈ distList m point :=
        (List.mem_insertionSort nnLE).mp ((List.take_sublist k _).mem hpr)
      obtain ⟨r, hr, -⟩ := mem_distList_get m point hmem
      unfold hemiOk
      rw [hr]
      simpa using not_le.mpr (h pr hpr r hr)
    have hqual : ((List.insertionSort nnLE (distList m point)).take k).filter
        (hemiOk m normal) = [] := by
      apply List.filter_eq_nil_iff.mpr
      intro a ha
      simp [hfil a ha]
    simp [gatherRadiance, hqual, Vec3.scale, Vec3.zero]

/-- C4: `gatherPhotons` returns zero radiance (0,0,0), not an error, when
the index stores no records or no queried photon (no neighbour returned by
the k-nearest query) passes the hemisphere filter against the normal. -/
theorem gather_zero_radiance_degenerate (pm : PhotonMap) (point normal : Vec3)
    (h : pm.p.kdtree_get_point_count = 0 ∨
      ∀ pr ∈ pm.findNNearestPoints point 5, ∀ r : PhotonInfo,
        pm.p.gathered_photons.get? pr.1 = some r →
          Vec3.dot normal (Vec3.neg r.direction) < 0) :
    (pm.gatherPhotons point normal).1 = Vec3.zero :=
  gatherRadiance_eq_zero pm.p point normal 5 h

/-- C4 witness: a one-record map whose single queried photon fails the
hemisphere filter (incoming direction parallel to the normal, so the
reversed direction points away) gathers zero radiance. -/
theorem gather_zero_radiance_degenerate_witness :
    ((PhotonMap.mk (PhotonMapper.mk 0 0 [⟨⟨1, 1, 1⟩, ⟨0, 0, 0⟩, ⟨0, 0, 1⟩⟩] [])).p.kdtree_get_point_count = 0 ∨
      ∀ pr ∈ (PhotonMap.mk (PhotonMapper.mk 0 0
          [⟨⟨1, 1, 1⟩, ⟨0, 0, 0⟩, ⟨0, 0, 1⟩⟩] [])).findNNearestPoints ⟨0, 0, 0⟩ 5,
        ∀ r : PhotonInfo,
          (PhotonMap.mk (PhotonMapper.mk 0 0
            [⟨⟨1, 1, 1⟩, ⟨0, 0, 0⟩, ⟨0, 0, 1⟩⟩] [])).p.gathered_photons.get? pr.1 = some r →
            Vec3.dot ⟨0, 0, 1⟩ (Vec3.neg r.direction) < 0) ∧
      ((PhotonMap.mk (PhotonMapper.mk 0 0
        [⟨⟨1, 1, 1⟩, ⟨0, 0, 0⟩, ⟨0, 0, 1⟩⟩] [])).gatherPhotons ⟨0, 0, 0⟩ ⟨0, 0, 1⟩).1 =
        Vec3.zero := by
  have hyp : ∀ pr ∈ (PhotonMap.mk (PhotonMapper.mk 0 0
      [⟨⟨1, 1, 1⟩, ⟨0, 0, 0⟩, ⟨0, 0, 1⟩⟩] [])).findNNearestPoints ⟨0, 0, 0⟩ 5,
      ∀ r : PhotonInfo,
        (PhotonMap.mk (PhotonMapper.mk 0 0
          [⟨⟨1, 1, 1⟩, ⟨0, 0, 0⟩, ⟨0, 0, 1⟩⟩] [])).p.gathered_photons.get? pr.1 = some r →
          Vec3.dot ⟨0, 0, 1⟩ (Vec3.neg r.direction) < 0 := by
    intro pr hpr r hr
    have hfind : (PhotonMap.mk (PhotonMapper.mk 0 0
        [⟨⟨1, 1, 1⟩, ⟨0, 0, 0⟩, ⟨0, 0, 1⟩⟩] [])).findNNearestPoints ⟨0, 0, 0⟩ 5 =
        [(0, sqDist ⟨0, 0, 0⟩ ⟨0, 0, 0⟩)] := rfl
    rw [hfind] at hpr
    have hpr1 : pr = (0, sqDist ⟨0, 0, 0⟩ ⟨0, 0, 0⟩) := by simpa using hpr
    subst hpr1
    have hrr : (⟨⟨1, 1, 1⟩, ⟨0, 0, 0⟩, ⟨0, 0, 1⟩⟩ : PhotonInfo) = r := Option.some.inj hr
    subst hrr
    norm_num [Vec3.dot, Vec3.neg]
  exact ⟨Or.inr hyp,
    gather_zero_radiance_degenerate
      (PhotonMap.mk (PhotonMapper.mk 0 0 [⟨⟨1, 1, 1⟩, ⟨0, 0, 0⟩, ⟨0, 0, 1⟩⟩] []))
      ⟨0, 0, 0⟩ ⟨0, 0, 1⟩ (Or.inr hyp)⟩

/-- C1: `findNNearestPoints` returns exactly min(k, n) (index,
squaredDistance) pairs, ordered by non-decreasing squared Euclidean
distance from the query point. -/
theorem findNNearestPoints_count_and_sorted (pm : PhotonMap) (point : Vec3)
    (k : Nat) :
    (pm.findNNearestPoints point k).length = min k pm.p.kdtree_get_point_count ∧
      List.Sorted (fun a b : Nat × ℚ => a.2 ≤ b.2) (pm.findNNearestPoints point k) ∧
      ∀ pr ∈ pm.findNNearestPoints point k, ∃ r : PhotonInfo,
        pm.p.gathered_photons.get? pr.1 = some r ∧ pr.2 = sqDist point r.position := by
  refine ⟨?_, ?_, ?_⟩
  · unfold PhotonMap.findNNearestPoints distList
    rw [List.length_take, List.length_insertionSort, List.length_map,
      List.length_range]
    rfl
  · have hs : List.Sorted nnLE (List.insertionSort nnLE (distList pm.p point)) :=
      List.sorted_insertionSort nnLE _
    have ht : List.Sorted nnLE (pm.findNNearestPoints point k) :=
      List.Pairwise.take hs
    exact ht.imp fun hab => hab.elim le_of_lt fun hh => le_of_eq hh.1
  · intro pr hpr
    exact mem_distList_get pm.p point
      ((List.mem_insertionSort nnLE).mp ((List.take_sublist k _).mem hpr))

end PhotonMapSpec
